import Mathlib

/-!
Shallow embedding of the `bank-statement-rs` ingestion pipeline.

Rust strings are modelled as `List Char` (named `Str` below); byte-level
operations (Rust `str::len`, byte-range slicing) are computed from the UTF-8
width of each character, so that the char-boundary behaviour of Rust slicing
is represented faithfully (an out-of-boundary slice, which panics in Rust, is
modelled by `none` / the `panic` outcome).

Sources embedded:
  - src/errors.rs               (`StatementParseError`)
  - src/parsers/qfx/types.rs    (`QfxDate`, `TryFrom<QfxDate> for NaiveDate`)
  - src/parsers/qfx/dto.rs      (OFX tree structs, `QfxTransaction::from_raw`)
  - src/parsers/qfx/parser.rs   (`convert_sgml_to_xml`, `QfxParser`)
  - src/parsers/csv/types.rs    (`CsvDate::parse`)
  - src/parsers/csv/dto.rs      (`TryFrom<CsvTransactionRaw> for CsvTransaction`)
  - src/parsers/csv/parser.rs   (`CsvParser`)
  - src/builder.rs              (`FileFormat`, `ParserBuilder::parse_into`)
  - src/types.rs                (`Transaction` conversions)

External library behaviour that the code relies on is modelled where the
claims need it: `chrono::NaiveDate::from_ymd_opt` and
`NaiveDate::parse_from_str` for the three fixed CSV format strings (canonical
digit widths), and `rust_decimal::Decimal::from_str` / `Display`.
-/

namespace BankStatement

/-- A Rust string, modelled as its list of Unicode scalar values. -/
abbrev Str := List Char

/-- UTF-8 byte width of one character (RFC 3629 encoding lengths). -/
def utf8Width (c : Char) : Nat :=
  if c.toNat ≤ 0x7F then 1
  else if c.toNat ≤ 0x7FF then 2
  else if c.toNat ≤ 0xFFFF then 3
  else 4

/-- Rust `str::len`: length in UTF-8 bytes. -/
def byteLen (s : Str) : Nat := (s.map utf8Width).sum

/-- Whitespace test used by Rust `char::is_whitespace` (ASCII fragment). -/
def isWs (c : Char) : Bool := c = ' ' ∨ c = '\t' ∨ c = '\n' ∨ c = '\r'

/-- Rust `str::trim_start`. -/
def trimStart (s : Str) : Str := s.dropWhile isWs

/-- Rust `str::trim_end`. -/
def trimEnd (s : Str) : Str := (s.reverse.dropWhile isWs).reverse

/-- Rust `str::trim`. -/
def trimStr (s : Str) : Str := trimEnd (trimStart s)

/-- First index at which `needle` occurs as a contiguous substring
(Rust `str::find` for a string pattern). -/
def findSubstrIdx : Str → Str → Option Nat
  | hay, needle =>
    if needle.isPrefixOf hay then some 0
    else match hay with
      | [] => none
      | _ :: t => (findSubstrIdx t needle).map (· + 1)

/-- Rust `str::contains` for a string pattern. -/
def strContains (hay needle : Str) : Bool := (findSubstrIdx hay needle).isSome

/-- Rust `str::starts_with`. -/
def strStartsWith (s pat : Str) : Bool := pat.isPrefixOf s

/-- Rust `str::ends_with`. -/
def strEndsWith (s pat : Str) : Bool := pat.isSuffixOf s

/-- Rust `str::to_lowercase` (ASCII fragment used by the repository). -/
def lowerStr (s : Str) : Str := s.map Char.toLower

/-- Rust `str::to_uppercase` (ASCII fragment used by the repository). -/
def upperStr (s : Str) : Str := s.map Char.toUpper

/-- Take the longest prefix of `s` spanning at most `n` UTF-8 bytes; fails
(`none`, modelling the Rust slicing panic) unless byte position `n` is a
character boundary or past the end cannot be reached exactly. -/
def byteTake : Str → Nat → Option Str
  | _, 0 => some []
  | [], _ + 1 => none
  | c :: cs, n + 1 =>
    if utf8Width c ≤ n + 1 then
      (byteTake cs (n + 1 - utf8Width c)).map (c :: ·)
    else none

/-- Drop the prefix of `s` spanning exactly `n` UTF-8 bytes; `none` when `n`
is not a character boundary. -/
def byteDrop : Str → Nat → Option Str
  | s, 0 => some s
  | [], _ + 1 => none
  | c :: cs, n + 1 =>
    if utf8Width c ≤ n + 1 then
      byteDrop cs (n + 1 - utf8Width c)
    else none

/-- Rust byte-range slice `&s[a..b]` (with `a ≤ b`); `none` models the
char-boundary / out-of-bounds panic. -/
def byteSlice (s : Str) (a b : Nat) : Option Str :=
  (byteDrop s a).bind (fun t => byteTake t (b - a))

/-- Split on a separator character; always returns at least one piece
(Rust `str::split(sep)`). -/
def splitOnChar (sep : Char) : Str → List Str
  | [] => [[]]
  | c :: cs =>
    if c = sep then [] :: splitOnChar sep cs
    else match splitOnChar sep cs with
      | p :: ps => (c :: p) :: ps
      | [] => [[c]]

/-- Rust `str::lines`: split on `'\n'`, drop a final empty piece produced by a
trailing newline, and strip one trailing `'\r'` from each line. -/
def rustLines (s : Str) : List Str :=
  let ps := splitOnChar '\n' s
  let ps := if ps.getLast? = some [] then ps.dropLast else ps
  ps.map (fun l => if strEndsWith l ['\r'] then l.dropLast else l)

/-- Decimal digit test. -/
def isDigitC (c : Char) : Bool := '0' ≤ c ∧ c ≤ '9'

/-- All characters are decimal digits. -/
def allDigits (s : Str) : Bool := s.all isDigitC

/-- Numeric value of a digit string (most significant first). -/
def digitsToNat (s : Str) : Nat :=
  s.foldl (fun acc c => acc * 10 + (c.toNat - '0'.toNat)) 0

/-- Rust `"…".parse::<u32>()`: optional `'+'`, then one or more digits,
nothing else, value below `2^32`. -/
def parseU32 (s : Str) : Option Nat :=
  let t := match s with
    | '+' :: r => r
    | r => r
  if t ≠ [] ∧ allDigits t ∧ digitsToNat t < 2 ^ 32 then some (digitsToNat t)
  else none

/-- Rust `"…".parse::<i32>()`: optional sign, then one or more digits,
nothing else, value within `i32` range. -/
def parseI32 (s : Str) : Option Int :=
  match s with
  | '-' :: r =>
    if r ≠ [] ∧ allDigits r ∧ digitsToNat r ≤ 2 ^ 31 then
      some (-(digitsToNat r : Int))
    else none
  | '+' :: r =>
    if r ≠ [] ∧ allDigits r ∧ digitsToNat r < 2 ^ 31 then some (digitsToNat r)
    else none
  | r =>
    if r ≠ [] ∧ allDigits r ∧ digitsToNat r < 2 ^ 31 then some (digitsToNat r)
    else none

/-! ## Calendar dates (model of `chrono::NaiveDate`) -/

/-- A calendar date (model of `chrono::NaiveDate`). -/
structure NaiveDate where
  year : Int
  month : Nat
  day : Nat
deriving DecidableEq, Repr

/-- Proleptic Gregorian leap-year rule. -/
def isLeapYear (y : Int) : Bool := y % 4 = 0 ∧ (y % 100 ≠ 0 ∨ y % 400 = 0)

/-- Days in a month of the proleptic Gregorian calendar. -/
def daysInMonth (y : Int) (m : Nat) : Nat :=
  if m = 2 then (if isLeapYear y then 29 else 28)
  else if m = 4 ∨ m = 6 ∨ m = 9 ∨ m = 11 then 30
  else 31

/-- Model of `chrono::NaiveDate::from_ymd_opt`: `none` on an invalid calendar
date or a year outside chrono's supported range. -/
def fromYmdOpt (y : Int) (m d : Nat) : Option NaiveDate :=
  if -262144 ≤ y ∧ y ≤ 262143 ∧ 1 ≤ m ∧ m ≤ 12 ∧ 1 ≤ d ∧ d ≤ daysInMonth y m then
    some ⟨y, m, d⟩
  else none

/-! ## Errors (src/errors.rs, `StatementParseError`) -/

/-- Model of `StatementParseError` (src/errors.rs). The `ReadContentFailed`
payload (`std::io::Error`) is dropped as irrelevant to the claims. -/
inductive StatementParseError where
  | ParseFailed (msg : Str)
  | UnsupportedFormat
  | ReadContentFailed
  | MissingContentAndFilepath
  | QfxDateInvalidFormat
  | CsvDateInvalidFormat
deriving DecidableEq, Repr

/-! ## QFX dates (src/parsers/qfx/types.rs) -/

/-- Model of `QfxDate`: a raw date token held as text. -/
structure QfxDate where
  raw : Str
deriving DecidableEq, Repr

/-- Outcome of a Rust computation that may return, error, or panic. -/
inductive ROutcome (α : Type) where
  | ok (a : α)
  | err (e : StatementParseError)
  | panic
deriving DecidableEq, Repr

/-- The cleaned significant prefix of a QFX date token:
`date_str.0.split(&['[', '.'][..]).next().unwrap().trim()`
(src/parsers/qfx/types.rs lines 33-37). -/
def qfxClean (s : Str) : Str :=
  trimStr (s.takeWhile (fun c => ¬(c = '[' ∨ c = '.')))

/-- Model of `TryFrom<QfxDate> for NaiveDate` (src/parsers/qfx/types.rs lines
29-50): strip any `[`/`.`-introduced suffix, require an 8-byte prefix, parse
`year`/`month`/`day` as the fixed byte ranges `[0..4]`, `[4..6]`, `[6..8]`,
and validate with `from_ymd_opt`. Byte slicing at a non-character boundary is
the Rust panic, modelled by `ROutcome.panic`. -/
def qfxDateTryFrom (d : QfxDate) : ROutcome NaiveDate :=
  let clean := qfxClean d.raw
  if byteLen clean < 8 then .err .QfxDateInvalidFormat
  else
    match byteSlice clean 0 4 with
    | none => .panic
    | some ys =>
      match parseI32 ys with
      | none => .err .QfxDateInvalidFormat
      | some y =>
        match byteSlice clean 4 6 with
        | none => .panic
        | some ms =>
          match parseU32 ms with
          | none => .err .QfxDateInvalidFormat
          | some m =>
            match byteSlice clean 6 8 with
            | none => .panic
            | some ds =>
              match parseU32 ds with
              | none => .err .QfxDateInvalidFormat
              | some dd =>
                match fromYmdOpt y m dd with
                | some nd => .ok nd
                | none => .err .QfxDateInvalidFormat

/-- Decidable equality for `Except`, used to evaluate the embedded fallible
functions on concrete inputs. -/
instance exceptDecEq {ε α : Type} [DecidableEq ε] [DecidableEq α] :
    DecidableEq (Except ε α) := fun x y =>
  match x, y with
  | .ok a, .ok b =>
    if h : a = b then .isTrue (by rw [h]) else .isFalse (by simp [h])
  | .ok _, .error _ => .isFalse (by simp)
  | .error _, .ok _ => .isFalse (by simp)
  | .error a, .error b =>
    if h : a = b then .isTrue (by rw [h]) else .isFalse (by simp [h])

/-! ## Exact decimals (model of `rust_decimal::Decimal`) -/

/-- Model of `rust_decimal::Decimal`: a scaled integer mantissa together with
a decimal scale (number of fractional digits). `|mantissa| < 2^96` and
`scale ≤ 28` in the library; the parser below enforces the capacity bound. -/
structure Decimal where
  mantissa : Int
  scale : Nat
deriving DecidableEq, Repr

/-- Accumulator state for the decimal scanner. -/
structure DecScan where
  acc : Nat
  sawDigit : Bool
  sawDot : Bool
  frac : Nat
deriving Repr

/-- One step of the `rust_decimal` digit scanner: digits accumulate, a single
`'.'` switches to fractional digits, `'_'` separators are skipped, anything
else is an unknown character. -/
def decScanStep (st : DecScan) (c : Char) : Except Str DecScan :=
  if isDigitC c then
    .ok { st with
          acc := st.acc * 10 + (c.toNat - '0'.toNat),
          sawDigit := true,
          frac := if st.sawDot then st.frac + 1 else st.frac }
  else if c = '.' then
    if st.sawDot then .error "Invalid decimal: two decimal points".data
    else .ok { st with sawDot := true }
  else if c = '_' then .ok st
  else .error "Invalid decimal: unknown character".data

/-- The optional-sign prefix step of `rust_decimal::Decimal::from_str`. -/
def decimalStripSign (s : Str) : Bool × Str :=
  match s with
  | '-' :: r => (true, r)
  | '+' :: r => (false, r)
  | r => (false, r)

/-- Run the digit scanner over a whole unsigned body, stopping at the first
error. -/
def decScanRun : DecScan → Str → Except Str DecScan
  | st, [] => .ok st
  | st, c :: cs =>
    match decScanStep st c with
    | .error e => .error e
    | .ok st2 => decScanRun st2 cs

/-- Model of `rust_decimal::Decimal::from_str` (used via
`"…".parse::<Decimal>()` and `Decimal::from_str`): optional sign, decimal
digits with at most one point and optional `'_'` separators, then the
library's capacity bounds. Error messages follow the library's fixed
descriptions, which never echo the input token. -/
def decimalFromStr (s : Str) : Except Str Decimal :=
  if s = [] then .error "Invalid decimal: empty".data
  else
    match decScanRun ⟨0, false, false, 0⟩ (decimalStripSign s).2 with
    | .error e => .error e
    | .ok st =>
      if ¬st.sawDigit then .error "Invalid decimal: no digits".data
      else if 2 ^ 96 ≤ st.acc then
        .error "Invalid decimal: overflow from too many digits".data
      else if 28 < st.frac then
        .error "Invalid decimal: fractional part too long".data
      else
        .ok ⟨if (decimalStripSign s).1 then -(st.acc : Int) else (st.acc : Int),
             st.frac⟩

/-- Left-pad a digit string with `'0'` up to length `n`. -/
def padZeros (n : Nat) (s : Str) : Str :=
  List.replicate (n - s.length) '0' ++ s

/-- Model of `rust_decimal`'s `Display`: the mantissa printed with exactly
`scale` fractional digits (no trimming, no padding beyond the scale). -/
def decimalToString (d : Decimal) : Str :=
  let digits := padZeros (d.scale + 1) (Nat.toDigits 10 d.mantissa.natAbs)
  let intPart := digits.take (digits.length - d.scale)
  let fracPart := digits.drop (digits.length - d.scale)
  (if d.mantissa < 0 then ['-'] else []) ++
    intPart ++ (if d.scale = 0 then [] else '.' :: fracPart)

/-! ## CSV date parsing (models of `chrono::NaiveDate::parse_from_str` for the
three fixed format strings, then src/parsers/csv/types.rs) -/

/-- Result of one chrono parse attempt: either a date or the display text of
the `chrono::ParseError` (`"input contains invalid characters"` for a shape
mismatch, `"input is out of range"` for an invalid calendar date). -/
def chronoOfParts (y m d : Str) : Except Str NaiveDate :=
  if y.length = 4 ∧ allDigits y ∧
     1 ≤ m.length ∧ m.length ≤ 2 ∧ allDigits m ∧
     1 ≤ d.length ∧ d.length ≤ 2 ∧ allDigits d then
    match fromYmdOpt (digitsToNat y) (digitsToNat m) (digitsToNat d) with
    | some nd => .ok nd
    | none => .error "input is out of range".data
  else .error "input contains invalid characters".data

/-- Model of `NaiveDate::parse_from_str(s, "%Y-%m-%d")` at the canonical digit
widths (4-digit year; 1- or 2-digit month and day), whole input consumed. -/
def parseYmdDash (s : Str) : Except Str NaiveDate :=
  match splitOnChar '-' s with
  | [y, m, d] => chronoOfParts y m d
  | _ => .error "input contains invalid characters".data

/-- Model of `NaiveDate::parse_from_str(s, "%d/%m/%Y")` at the canonical digit
widths. -/
def parseDmySlash (s : Str) : Except Str NaiveDate :=
  match splitOnChar '/' s with
  | [d, m, y] => chronoOfParts y m d
  | _ => .error "input contains invalid characters".data

/-- Model of `NaiveDate::parse_from_str(s, "%m/%d/%Y")` at the canonical digit
widths. -/
def parseMdySlash (s : Str) : Except Str NaiveDate :=
  match splitOnChar '/' s with
  | [m, d, y] => chronoOfParts y m d
  | _ => .error "input contains invalid characters".data

/-- Model of `CsvDate`: a raw CSV date token held as text
(src/parsers/csv/types.rs). -/
structure CsvDate where
  raw : Str
deriving DecidableEq, Repr

/-- Model of `CsvDate::parse` (src/parsers/csv/types.rs lines 18-34): trim,
then try `%Y-%m-%d`, `%d/%m/%Y`, `%m/%d/%Y` in that order; if none matches,
fail with `CsvDateInvalidFormat`. -/
def csvDateParse (d : CsvDate) : Except StatementParseError NaiveDate :=
  match parseYmdDash (trimStr d.raw) with
  | .ok nd => .ok nd
  | .error _ =>
    match parseDmySlash (trimStr d.raw) with
    | .ok nd => .ok nd
    | .error _ =>
      match parseMdySlash (trimStr d.raw) with
      | .ok nd => .ok nd
      | .error _ => .error .CsvDateInvalidFormat

/-! ## CSV rows (src/parsers/csv/dto.rs) -/

/-- Model of `CsvTransactionRaw`: one deserialized CSV row, all scalar fields
still textual. -/
structure CsvTransactionRaw where
  date : Str
  trn_type : Str
  description : Option Str
  amount : Str
  fitid : Option Str
  memo : Option Str
deriving DecidableEq, Repr

/-- Model of `CsvTransaction`: the validated CSV record with a resolved
calendar date and an exact decimal amount. -/
structure CsvTransaction where
  date : NaiveDate
  trn_type : Str
  description : Option Str
  amount : Decimal
  fitid : Option Str
  memo : Option Str
deriving DecidableEq, Repr

/-- Model of `TryFrom<CsvTransactionRaw> for CsvTransaction`
(src/parsers/csv/dto.rs lines 31-50): the date is resolved eagerly by trying
`%Y-%m-%d` and then `%d/%m/%Y` only, and the amount must parse as an exact
decimal; either failure yields a `String` error. -/
def csvTryFromRaw (raw : CsvTransactionRaw) : Except Str CsvTransaction :=
  match parseYmdDash raw.date with
  | .ok d => csvFinish raw d
  | .error _ =>
    match parseDmySlash raw.date with
    | .ok d => csvFinish raw d
    | .error e => .error ("Invalid date: ".data ++ e)
where
  /-- Amount validation shared by both date branches. -/
  csvFinish (raw : CsvTransactionRaw) (d : NaiveDate) :
      Except Str CsvTransaction :=
    match decimalFromStr raw.amount with
    | .ok a =>
      .ok ⟨d, raw.trn_type, raw.description, a, raw.fitid, raw.memo⟩
    | .error e => .error ("Invalid amount: ".data ++ e)

/-! ## QFX transactions (src/parsers/qfx/dto.rs) -/

/-- Model of `QfxTransactionRaw`: one `STMTTRN` node, amount still textual. -/
structure QfxTransactionRaw where
  trn_type : Str
  dt_posted : QfxDate
  amount : Str
  fitid : Option Str
  name : Option Str
  memo : Option Str
deriving DecidableEq, Repr

/-- Model of `QfxTransaction`: amount converted to an exact decimal; the
posting date stays textual (`QfxDate`). -/
structure QfxTransaction where
  trn_type : Str
  dt_posted : QfxDate
  amount : Decimal
  fitid : Option Str
  name : Option Str
  memo : Option Str
deriving DecidableEq, Repr

/-- Model of `QfxTransaction::from_raw` (src/parsers/qfx/dto.rs lines 88-101):
only the amount is converted; failure maps the decimal parser's error
description into `"Invalid amount: {e}"`. -/
def qfxFromRaw (raw : QfxTransactionRaw) : Except Str QfxTransaction :=
  match decimalFromStr raw.amount with
  | .ok a =>
    .ok ⟨raw.trn_type, raw.dt_posted, a, raw.fitid, raw.name, raw.memo⟩
  | .error e => .error ("Invalid amount: ".data ++ e)

/-- Model of `QfxBankTransactionList` (src/parsers/qfx/dto.rs lines 42-46):
the `STMTTRN` list is `#[serde(default)]`, so an absent list deserializes to
the empty list. -/
structure QfxBankTransactionList where
  transactions : List QfxTransactionRaw
deriving DecidableEq, Repr

/-- Model of `QfxStmtRs`. -/
structure QfxStmtRs where
  bank_transaction_list : QfxBankTransactionList
deriving DecidableEq, Repr

/-- Model of `QfxStmtTrnRs`. -/
structure QfxStmtTrnRs where
  stmt_rs : QfxStmtRs
deriving DecidableEq, Repr

/-- Model of `QfxBankMsgsRsV1`. -/
structure QfxBankMsgsRsV1 where
  stmt_trn_rs : QfxStmtTrnRs
deriving DecidableEq, Repr

/-- Model of `QfxCcStmtRs`. -/
structure QfxCcStmtRs where
  bank_transaction_list : QfxBankTransactionList
deriving DecidableEq, Repr

/-- Model of `QfxCcStmtTrnRs`. -/
structure QfxCcStmtTrnRs where
  cc_stmt_rs : QfxCcStmtRs
deriving DecidableEq, Repr

/-- Model of `QfxCreditCardMsgsRsV1`. -/
structure QfxCreditCardMsgsRsV1 where
  cc_stmt_trn_rs : QfxCcStmtTrnRs
deriving DecidableEq, Repr

/-- Model of `OfxXml` (src/parsers/qfx/dto.rs lines 48-54): the parsed OFX
tree with two optional branches. -/
structure OfxXml where
  bank_msgs : Option QfxBankMsgsRsV1
  cc_msgs : Option QfxCreditCardMsgsRsV1
deriving DecidableEq, Repr

/-- The branch-selection step of `QfxParser::parse`
(src/parsers/qfx/parser.rs lines 37-40): take the bank branch's transaction
list, otherwise the credit-card branch's, otherwise fail with
`"No transaction data found"`. -/
def qfxExtractRaw (ofx : OfxXml) : Except Str (List QfxTransactionRaw) :=
  match ofx.bank_msgs with
  | some b => .ok b.stmt_trn_rs.stmt_rs.bank_transaction_list.transactions
  | none =>
    match ofx.cc_msgs with
    | some c => .ok c.cc_stmt_trn_rs.cc_stmt_rs.bank_transaction_list.transactions
    | none => .error "No transaction data found".data

/-- Rust `iter.map(f).collect::<Result<Vec<_>, _>>()`: apply `f` to each
element in order, stopping at the first error. -/
def collectResults {α β ε : Type} (f : α → Except ε β) :
    List α → Except ε (List β)
  | [] => .ok []
  | a :: l =>
    match f a with
    | .error e => .error e
    | .ok b =>
      match collectResults f l with
      | .error e => .error e
      | .ok bs => .ok (b :: bs)

/-- The per-transaction conversion step of `QfxParser::parse`
(src/parsers/qfx/parser.rs lines 42-45): map `from_raw` over the raw nodes,
failing the whole parse on the first error (Rust `collect` over `Result`). -/
def qfxParseTree (ofx : OfxXml) : Except Str (List QfxTransaction) :=
  match qfxExtractRaw ofx with
  | .error e => .error e
  | .ok raws => collectResults qfxFromRaw raws

/-! ## SGML normalizer (src/parsers/qfx/parser.rs, `convert_sgml_to_xml`) -/

/-- The fixed registry of leaf element names
(src/parsers/qfx/parser.rs lines 50-54). -/
def LEAF_ELEMENTS : List Str :=
  ["CODE", "SEVERITY", "MESSAGE", "DTSERVER", "LANGUAGE", "ORG", "FID",
   "TRNUID", "CURDEF", "BANKID", "ACCTID", "ACCTTYPE", "DTSTART", "DTEND",
   "TRNTYPE", "DTPOSTED", "DTUSER", "TRNAMT", "FITID", "NAME", "MEMO",
   "INTU.BID", "DTPROFUP", "DTASOF", "BALAMT"].map String.data

/-- Index of the first character satisfying a predicate (Rust `str::find`
with a character-predicate pattern). -/
def findIdxP (p : Char → Bool) : Str → Option Nat
  | [] => none
  | c :: cs => if p c then some 0 else (findIdxP p cs).map (· + 1)

/-- Index of the first character that is `'>'` or whitespace
(Rust `trimmed.find(|c| c == '>' || c.is_whitespace())`). -/
def findTagEnd (s : Str) : Option Nat :=
  findIdxP (fun c => c = '>' ∨ isWs c) s

/-- The loop body of `convert_sgml_to_xml` (src/parsers/qfx/parser.rs lines
66-105) applied to a single input line; returns the chunk appended to the
output (empty for a blank line, otherwise ending in `'\n'`). -/
def processSgmlLine (line : Str) : Str :=
  let t := trimStr line
  if t = [] then []
  else if ¬strStartsWith t "<".data ∨ strStartsWith t "</".data then
    t ++ ['\n']
  else
    let tagEnd := (findTagEnd t).getD t.length
    let tagName := (t.take tagEnd).drop 1
    if LEAF_ELEMENTS.contains (upperStr tagName) then
      match findIdxP (fun c => c = '>') t with
      | some contentStart =>
        let afterTag := t.drop (contentStart + 1)
        let closing := "</".data ++ tagName ++ ">".data
        if ¬strContains afterTag closing then
          let contentEnd := (findSubstrIdx afterTag "</".data).getD afterTag.length
          let content := trimStr (afterTag.take contentEnd)
          let trailing := afterTag.drop contentEnd
          t.take (contentStart + 1) ++ content ++ closing ++ trailing ++ ['\n']
        else t ++ ['\n']
      | none => t ++ ['\n']
    else t ++ ['\n']

/-- Model of `convert_sgml_to_xml` (src/parsers/qfx/parser.rs lines 49-108):
skip every line before the first one containing `<OFX>`, then rewrite the
remaining lines with `processSgmlLine`. The Rust function returns
`Result<String, String>` but has no error path; the `Ok` payload is modelled
directly. -/
def convertSgmlToXml (content : Str) : Str :=
  let ls := (rustLines content).dropWhile (fun l => ¬strContains l "<OFX>".data)
  (ls.map processSgmlLine).flatten

/-! ## Detection (src/parsers/qfx/parser.rs `is_supported`,
src/parsers/csv/parser.rs `is_supported`) -/

/-- Model of `QfxParser::is_supported` (src/parsers/qfx/parser.rs lines 9-21):
a `.qfx`/`.ofx` extension (case-insensitive) wins; otherwise the trimmed
content must contain `<OFX>`, `OFXHEADER:` or `DATA:OFXSGML`. -/
def qfxIsSupported (filename : Option Str) (content : Str) : Bool :=
  let extHit := match filename with
    | some name =>
      strEndsWith (lowerStr name) ".qfx".data ||
        strEndsWith (lowerStr name) ".ofx".data
    | none => false
  if extHit then true
  else
    let trimmed := trimStr content
    strContains trimmed "<OFX>".data ||
      strContains trimmed "OFXHEADER:".data ||
      strContains trimmed "DATA:OFXSGML".data

/-- Model of `CsvParser::is_supported` (src/parsers/csv/parser.rs lines
10-27): the first content line must contain both `Date` and `Amount`; with a
filename the `.csv` extension (case-insensitive) is also required. -/
def csvIsSupported (filename : Option Str) (content : Str) : Bool :=
  let firstLine := (rustLines content).headD []
  let looksLikeCsv :=
    strContains firstLine "Date".data && strContains firstLine "Amount".data
  match filename with
  | some name => strEndsWith (lowerStr name) ".csv".data && looksLikeCsv
  | none => looksLikeCsv

/-! ## Dispatcher (src/builder.rs) -/

/-- Model of `FileFormat` (src/builder.rs lines 13-18). -/
inductive FileFormat where
  | Qfx
  | Csv
deriving DecidableEq, Repr

/-- Model of `ParsedTransaction` (src/builder.rs lines 7-10): the tagged
union over the two format-specific records. -/
inductive ParsedTransaction where
  | Qfx (t : QfxTransaction)
  | Csv (t : CsvTransaction)
deriving DecidableEq, Repr

/-- Model of `FileFormat::detect` (src/builder.rs lines 52-75): with content,
try the QFX content detector and then the CSV one; otherwise fall back to the
filename's final extension for `.qfx`/`.ofx` only; otherwise
`UnsupportedFormat`. -/
def fileFormatDetect (filename content : Option Str) :
    Except StatementParseError FileFormat :=
  match content with
  | some c =>
    if qfxIsSupported filename c then .ok .Qfx
    else if csvIsSupported filename c then .ok .Csv
    else fileFormatDetectByExt filename
  | none => fileFormatDetectByExt filename
where
  /-- The extension-only fallback (src/builder.rs lines 64-74):
  `filename.split('.').last()`, lowercased, matched against `qfx`/`ofx`. -/
  fileFormatDetectByExt (filename : Option Str) :
      Except StatementParseError FileFormat :=
    match filename with
    | some f =>
      let ext := lowerStr ((splitOnChar '.' f).getLastD [])
      if ext = "qfx".data ∨ ext = "ofx".data then .ok .Qfx
      else .error .UnsupportedFormat
    | none => .error .UnsupportedFormat

/-- The row-validation stage of `CsvParser::parse`
(src/parsers/csv/parser.rs lines 29-43) applied to the rows already
deserialized by the `csv` crate (row deserialization itself is an external
collaborator): each raw row is converted with `TryFrom`, failing the whole
parse on the first error. -/
def csvParseRows (rows : List CsvTransactionRaw) :
    Except Str (List CsvTransaction) :=
  collectResults csvTryFromRaw rows

/-- The CSV arm of `FileFormat::parse_raw` (src/builder.rs lines 31-38),
starting from deserialized rows: a parser `String` error becomes
`StatementParseError::ParseFailed`, successes are wrapped in the tagged
union. -/
def csvParseRawArm (rows : List CsvTransactionRaw) :
    Except StatementParseError (List ParsedTransaction) :=
  match csvParseRows rows with
  | .ok ts => .ok (ts.map ParsedTransaction.Csv)
  | .error e => .error (.ParseFailed e)

/-- The QFX arm of `FileFormat::parse_raw` (src/builder.rs lines 23-30),
starting from the parsed OFX tree (XML deserialization is an external
collaborator): a parser `String` error becomes
`StatementParseError::ParseFailed`, successes are wrapped in the tagged
union. -/
def qfxParseRawArm (ofx : OfxXml) :
    Except StatementParseError (List ParsedTransaction) :=
  match qfxParseTree ofx with
  | .ok ts => .ok (ts.map ParsedTransaction.Qfx)
  | .error e => .error (.ParseFailed e)

/-! ## Unified record (src/types.rs) -/

/-- Model of `Transaction` (src/types.rs lines 7-16): the canonical output
record. -/
structure Transaction where
  date : NaiveDate
  amount : Decimal
  payee : Option Str
  transaction_type : Str
  fitid : Option Str
  status : Option Str
  memo : Option Str
deriving DecidableEq, Repr

/-- Model of `TryFrom<CsvTransaction> for Transaction` (src/types.rs lines
29-43): a plain field mapping — the date was already resolved by the CSV
parser; payee comes from the description; status stays unset. -/
def transactionFromCsv (stmt : CsvTransaction) :
    Except StatementParseError Transaction :=
  .ok ⟨stmt.date, stmt.amount, stmt.description, stmt.trn_type, stmt.fitid,
       none, stmt.memo⟩

/-- Model of `TryFrom<QfxTransaction> for Transaction` (src/types.rs lines
45-58): resolves the retained `QfxDate` here; payee comes from the name;
status stays unset. The QFX date conversion may panic (see
`qfxDateTryFrom`), so the result is an `ROutcome`. -/
def transactionFromQfx (stmt : QfxTransaction) : ROutcome Transaction :=
  match qfxDateTryFrom stmt.dt_posted with
  | .ok d =>
    .ok ⟨d, stmt.amount, stmt.name, stmt.trn_type, stmt.fitid, none,
         stmt.memo⟩
  | .err e => .err e
  | .panic => .panic

/-- Model of `TryFrom<ParsedTransaction> for Transaction` (src/types.rs lines
18-27): dispatch on the tagged union. -/
def transactionFromParsed (parsed : ParsedTransaction) :
    ROutcome Transaction :=
  match parsed with
  | .Qfx q => transactionFromQfx q
  | .Csv c =>
    match transactionFromCsv c with
    | .ok t => .ok t
    | .error e => .err e

/-- Model of the control flow of `ParserBuilder::parse_into`
(src/builder.rs lines 109-124). The final `format.parse(&content)` call and
the filesystem are external to this step and passed as oracles: `fs` models
`fs::read_to_string` (`none` is an I/O failure) and `doParse` models
`FileFormat::parse::<T>` for `T = Transaction`. The format is resolved first
(explicit override, else detection on the optional inputs), then the content
(inline content, else a file read, else `MissingContentAndFilepath`). -/
def parseInto (format : Option FileFormat) (filepath content : Option Str)
    (fs : Str → Option Str)
    (doParse : FileFormat → Str → Except StatementParseError (List Transaction)) :
    Except StatementParseError (List Transaction) :=
  let fmtRes : Except StatementParseError FileFormat :=
    match format with
    | some f => .ok f
    | none => fileFormatDetect filepath content
  match fmtRes with
  | .error e => .error e
  | .ok fmt =>
    let contentRes : Except StatementParseError Str :=
      match content with
      | some c => .ok c
      | none =>
        match filepath with
        | none => .error .MissingContentAndFilepath
        | some p =>
          match fs p with
          | some c => .ok c
          | none => .error .ReadContentFailed
    match contentRes with
    | .error e => .error e
    | .ok c => doParse fmt c

/-! ## Claim theorems -/

/-- C7: decimal amount parsing is exact in both parsers — the token
`"-50.00"` parses to the decimal with mantissa `-5000` and scale `2`, whose
display form is exactly `"-50.00"` (not `"-50"` and not `"-50.00000001"`),
and both the QFX `from_raw` conversion and the CSV row conversion carry that
exact value through. -/
theorem c7_decimal_parsing_exact :
    decimalFromStr "-50.00".data = .ok ⟨-5000, 2⟩ ∧
    decimalToString ⟨-5000, 2⟩ = "-50.00".data ∧
    (qfxFromRaw ⟨"DEBIT".data, ⟨"20251226120000".data⟩, "-50.00".data,
        none, none, none⟩).map (fun t => decimalToString t.amount) =
      .ok "-50.00".data ∧
    (csvTryFromRaw ⟨"2025-12-26".data, "DEBIT".data, none, "-50.00".data,
        none, none⟩).map (fun t => decimalToString t.amount) =
      .ok "-50.00".data ∧
    "-50.00".data ≠ "-50".data ∧
    "-50.00".data ≠ "-50.00000001".data := by decide

/-- C10: the QFX date conversion is *not* total — on the 9-byte token
`"202é1226"` (whose first 8 bytes are not split at a character boundary by
the fixed-width ranges), the slice `&clean[0..4]` of
`TryFrom<QfxDate> for NaiveDate` falls on the middle of the two-byte
character `é`, which in Rust is a char-boundary panic rather than the
`QfxDateInvalidFormat` error the error design prescribes. -/
theorem c10_qfx_date_char_boundary_panic :
    qfxDateTryFrom ⟨"202é1226".data⟩ = .panic ∧
    byteLen (qfxClean "202é1226".data) = 9 := by decide

/-- C9 counterexample: with neither content nor filepath and no explicit
format override, `ParserBuilder::parse_into` runs detection first on the
absent inputs and fails with `UnsupportedFormat`, not with the missing-input
error kind the claim requires in every case (this matches the repository's
own `test_builder_missing_content`). -/
theorem c9_counterexample :
    parseInto none none none (fun _ => none) (fun _ _ => .ok []) =
      .error .UnsupportedFormat ∧
    StatementParseError.UnsupportedFormat ≠
      StatementParseError.MissingContentAndFilepath := by decide

/-- C9 (amended): when an explicit format override is supplied and neither
content nor a filepath is given, `parse_into` fails with the missing-input
error kind; without an override, detection runs first on the absent inputs
and the call fails with `UnsupportedFormat` instead. -/
theorem c9_missing_input_behaviour :
    ∀ (fs : Str → Option Str)
      (doParse : FileFormat → Str → Except StatementParseError (List Transaction))
      (fmt : FileFormat),
      parseInto (some fmt) none none fs doParse =
        .error .MissingContentAndFilepath ∧
      parseInto none none none fs doParse = .error .UnsupportedFormat := by
  intro fs doParse fmt
  exact ⟨rfl, rfl⟩

/-- C1 counterexample: `"12/26/2025"` is a well-formed `MM/DD/YYYY` token
(the standalone `CsvDate::parse` resolves it to 2025-12-26), yet the CSV
parsing pipeline's row conversion — which tries only `%Y-%m-%d` and
`%d/%m/%Y` — rejects the row, so pipeline date resolution does not succeed
on all three claimed formats. -/
theorem c1_counterexample :
    csvDateParse ⟨"12/26/2025".data⟩ = .ok ⟨2025, 12, 26⟩ ∧
    (match csvTryFromRaw ⟨"12/26/2025".data, "DEBIT".data, none,
        "1.00".data, none, none⟩ with
     | .error _ => true
     | .ok _ => false) = true := by decide

/-- C3 counterexample: a CSV row whose date resolves under none of the
formats is rejected *during* the parse step (`TryFrom<CsvTransactionRaw>`),
and the builder surfaces it as the generic `ParseFailed` error kind — not as
the CSV date-resolution error kind the claim requires. -/
theorem c3_counterexample :
    (match csvParseRawArm [⟨"invalid".data, "DEBIT".data, none, "1.00".data,
        none, none⟩] with
     | .error (.ParseFailed _) => true
     | _ => false) = true := by decide

/-- C8 counterexample: on the amount token `"$100.00"` (from the
repository's own `test_from_raw_invalid_amounts`), `QfxTransaction::from_raw`
fails with `"Invalid amount: {e}"` where `e` is the decimal library's fixed
error description — the message does not contain the offending token. -/
theorem c8_counterexample :
    qfxFromRaw ⟨"DEBIT".data, ⟨"20251226120000".data⟩, "$100.00".data,
        some "202512260".data, none, none⟩ =
      .error "Invalid amount: Invalid decimal: unknown character".data ∧
    strContains "Invalid amount: Invalid decimal: unknown character".data
      "$100.00".data = false := by decide

/-- `takeWhile` stops exactly at the first failing element. -/
theorem takeWhile_append_stop (p : Char → Bool) (l : Str) (c : Char) (r : Str)
    (hl : ∀ x ∈ l, p x = true) (hc : p c = false) :
    (l ++ c :: r).takeWhile p = l := by
  induction l with
  | nil => simp [List.takeWhile_cons, hc]
  | cons a as ih =>
    have ha : p a = true := hl a (by simp)
    simp only [List.cons_append, List.takeWhile_cons, ha, if_true]
    rw [ih (fun x hx => hl x (by simp [hx]))]

/-- `takeWhile` keeps a list all of whose elements satisfy the predicate. -/
theorem takeWhile_eq_self_of (p : Char → Bool) (l : Str)
    (hl : ∀ x ∈ l, p x = true) : l.takeWhile p = l := by
  induction l with
  | nil => simp
  | cons a as ih =>
    have ha : p a = true := hl a (by simp)
    simp only [List.takeWhile_cons, ha, if_true]
    rw [ih (fun x hx => hl x (by simp [hx]))]

/-- Appending a `[`- or `.`-introduced suffix does not change the cleaned
prefix of a QFX date token. -/
theorem qfxClean_append_suffix (p : Str) (c : Char) (suf : Str)
    (hc : c = '[' ∨ c = '.') (hp : ∀ x ∈ p, x ≠ '[' ∧ x ≠ '.') :
    qfxClean (p ++ c :: suf) = qfxClean p := by
  unfold qfxClean
  have h1 : (p ++ c :: suf).takeWhile (fun c => ¬(c = '[' ∨ c = '.')) = p := by
    apply takeWhile_append_stop
    · intro x hx
      simp [hp x hx]
    · simp [hc]
  have h2 : p.takeWhile (fun c => ¬(c = '[' ∨ c = '.')) = p := by
    apply takeWhile_eq_self_of
    intro x hx
    simp [hp x hx]
  rw [h1, h2]

/-- The QFX date conversion depends only on the cleaned prefix. -/
theorem qfxDateTryFrom_congr (s1 s2 : Str) (h : qfxClean s1 = qfxClean s2) :
    qfxDateTryFrom ⟨s1⟩ = qfxDateTryFrom ⟨s2⟩ := by
  simp only [qfxDateTryFrom, h]

/-- C2: QFX date conversion ignores any trailing `[offset:TZ]` or
`.fraction` suffix (the result depends only on the text before the first `[`
or `.`), fails with the QFX-date error kind whenever the cleaned prefix is
shorter than 8 bytes, and on well-formed tokens parses the fixed-width
`YYYYMMDD` prefix into the validated calendar date (trailing time digits are
ignored; an impossible calendar date such as `20250229` is rejected). -/
theorem c2_qfx_date_resolution :
    (∀ (p suf : Str) (c : Char), (c = '[' ∨ c = '.') →
      (∀ x ∈ p, x ≠ '[' ∧ x ≠ '.') →
      qfxDateTryFrom ⟨p ++ c :: suf⟩ = qfxDateTryFrom ⟨p⟩) ∧
    (∀ s : Str, byteLen (qfxClean s) < 8 →
      qfxDateTryFrom ⟨s⟩ = .err .QfxDateInvalidFormat) ∧
    qfxDateTryFrom ⟨"20251226120000[0:GMT]".data⟩ = .ok ⟨2025, 12, 26⟩ ∧
    qfxDateTryFrom ⟨"20251224000000.000".data⟩ = .ok ⟨2025, 12, 24⟩ ∧
    qfxDateTryFrom ⟨"20251225".data⟩ = .ok ⟨2025, 12, 25⟩ ∧
    qfxDateTryFrom ⟨"20250229".data⟩ = .err .QfxDateInvalidFormat := by
  refine ⟨?_, ?_, by decide, by decide, by decide, by decide⟩
  · intro p suf c hc hp
    exact qfxDateTryFrom_congr _ _ (qfxClean_append_suffix p c suf hc hp)
  · intro s h
    simp only [qfxDateTryFrom]
    rw [if_pos h]

/-- C2 witness: the suffix-irrelevance and short-prefix parts of
`c2_qfx_date_resolution` applied at concrete tokens. -/
theorem c2_witness :
    qfxDateTryFrom ⟨"20251226120000".data ++ '[' :: "0:GMT]".data⟩ =
      qfxDateTryFrom ⟨"20251226120000".data⟩ ∧
    qfxDateTryFrom ⟨"1234567".data⟩ = .err .QfxDateInvalidFormat :=
  ⟨c2_qfx_date_resolution.1 "20251226120000".data "0:GMT]".data '['
      (by decide) (by decide),
   c2_qfx_date_resolution.2.1 "1234567".data (by decide)⟩

/-- C4: with content present, detection tests the QFX content detector
before the CSV one — content matching the QFX signature (the trimmed text
contains `<OFX>`, `OFXHEADER:` or `DATA:OFXSGML`) selects QFX even when the
filename carries a `.csv` extension; and the CSV detector is consulted only
when the QFX detector declines, the first detector to answer true winning. -/
theorem c4_detect_content_over_extension :
    (∀ fname content : Str,
      strEndsWith (lowerStr fname) ".csv".data = true →
      (strContains (trimStr content) "<OFX>".data ||
        strContains (trimStr content) "OFXHEADER:".data ||
        strContains (trimStr content) "DATA:OFXSGML".data) = true →
      fileFormatDetect (some fname) (some content) = .ok .Qfx) ∧
    (∀ (filename : Option Str) (content : Str),
      qfxIsSupported filename content = false →
      csvIsSupported filename content = true →
      fileFormatDetect filename (some content) = .ok .Csv) := by
  constructor
  · intro fname content _ hsig
    have hq : qfxIsSupported (some fname) content = true := by
      cases hext : (strEndsWith (lowerStr fname) ".qfx".data ||
          strEndsWith (lowerStr fname) ".ofx".data) <;>
        simp [qfxIsSupported, hext, hsig]
    simp [fileFormatDetect, hq]
  · intro filename content h1 h2
    simp [fileFormatDetect, h1, h2]

/-- C4 witness: `c4_detect_content_over_extension` at the explicit tie-break
input — QFX content with a `.csv` filename — and at a CSV-only input. -/
theorem c4_witness :
    fileFormatDetect (some "statement.csv".data) (some "<OFX>x".data) =
      .ok .Qfx ∧
    fileFormatDetect (some "data.csv".data)
      (some "Date,Type,Description,Amount\nx".data) = .ok .Csv :=
  ⟨c4_detect_content_over_extension.1 "statement.csv".data "<OFX>x".data
      (by decide) (by decide),
   c4_detect_content_over_extension.2 (some "data.csv".data)
      "Date,Type,Description,Amount\nx".data (by decide) (by decide)⟩

/-- A scanner step error is one of the library's two fixed descriptions. -/
theorem decScanStep_error_desc (st : DecScan) (c : Char) (e : Str)
    (h : decScanStep st c = .error e) :
    e = "Invalid decimal: two decimal points".data ∨
    e = "Invalid decimal: unknown character".data := by
  unfold decScanStep at h
  split at h
  · simp at h
  · split at h
    · split at h
      · injection h with h2
        exact Or.inl h2.symm
      · simp at h
    · split at h
      · simp at h
      · injection h with h2
        exact Or.inr h2.symm

/-- A scanner run error is one of the library's two fixed descriptions. -/
theorem decScanRun_error_desc (body : Str) (st : DecScan) (e : Str)
    (h : decScanRun st body = .error e) :
    e = "Invalid decimal: two decimal points".data ∨
    e = "Invalid decimal: unknown character".data := by
  induction body generalizing st with
  | nil => simp [decScanRun] at h
  | cons c cs ih =>
    rw [decScanRun] at h
    cases hs : decScanStep st c with
    | ok st2 =>
      rw [hs] at h
      exact ih st2 h
    | error m =>
      rw [hs] at h
      injection h with h2
      exact h2 ▸ decScanStep_error_desc st c m hs

/-- Every `decimalFromStr` error is one of the library's fixed descriptions;
in particular the input token never appears in the message. -/
theorem decimalFromStr_error_desc (s e : Str)
    (h : decimalFromStr s = .error e) :
    e = "Invalid decimal: empty".data ∨
    e = "Invalid decimal: two decimal points".data ∨
    e = "Invalid decimal: unknown character".data ∨
    e = "Invalid decimal: no digits".data ∨
    e = "Invalid decimal: overflow from too many digits".data ∨
    e = "Invalid decimal: fractional part too long".data := by
  unfold decimalFromStr at h
  split at h
  · injection h with h2
    exact Or.inl h2.symm
  · split at h
    · rename_i e1 heq
      injection h with h2
      rcases h2 ▸ decScanRun_error_desc _ _ _ heq with h3 | h3
      · exact Or.inr (Or.inl h3)
      · exact Or.inr (Or.inr (Or.inl h3))
    · rename_i st heq
      split at h
      · injection h with h2
        exact Or.inr (Or.inr (Or.inr (Or.inl h2.symm)))
      · split at h
        · injection h with h2
          exact Or.inr (Or.inr (Or.inr (Or.inr (Or.inl h2.symm))))
        · split at h
          · injection h with h2
            exact Or.inr (Or.inr (Or.inr (Or.inr (Or.inr h2.symm))))
          · simp at h

/-- Any error produced by `qfxFromRaw` carries the invalid-amount prefix. -/
theorem qfxFromRaw_error_shape (r : QfxTransactionRaw) (m : Str)
    (h : qfxFromRaw r = .error m) :
    ∃ e0, m = "Invalid amount: ".data ++ e0 := by
  unfold qfxFromRaw at h
  cases hd : decimalFromStr r.amount with
  | ok a =>
    rw [hd] at h
    simp at h
  | error e0 =>
    rw [hd] at h
    exact ⟨e0, by injection h with h2; exact h2.symm⟩

/-- Any error of the per-transaction conversion pass carries the
invalid-amount prefix. -/
theorem qfx_collect_error_shape (rows : List QfxTransactionRaw) (e : Str)
    (h : collectResults qfxFromRaw rows = .error e) :
    ∃ e0, e = "Invalid amount: ".data ++ e0 := by
  induction rows with
  | nil => simp [collectResults] at h
  | cons r rs ih =>
    rw [collectResults] at h
    cases hr : qfxFromRaw r with
    | ok t =>
      rw [hr] at h
      cases hm : collectResults qfxFromRaw rs with
      | ok ts =>
        rw [hm] at h
        simp at h
      | error e1 =>
        rw [hm] at h
        injection h with h2
        exact ih (h2 ▸ hm)
    | error m =>
      rw [hr] at h
      injection h with h2
      exact h2 ▸ qfxFromRaw_error_shape r m hr

/-- An invalid-amount message is never the no-transaction-data message. -/
theorem invalid_amount_ne_ntd (e0 : Str) :
    "Invalid amount: ".data ++ e0 ≠ "No transaction data found".data := by
  intro h
  have h2 := congrArg (List.take 16) h
  have h3 : ("Invalid amount: ".data ++ e0).take 16 =
      "Invalid amount: ".data := by
    have hlen : ("Invalid amount: ".data).length = 16 := by decide
    rw [← hlen, List.take_left]
  rw [h3] at h2
  exact absurd h2 (by decide)

/-- C5: a QFX parse fails with `"No transaction data found"` exactly when
both the bank-statement and the credit-card branch are absent from the
parsed OFX tree; a present branch whose transaction list is empty (or
absent, thanks to the serde default) yields the empty sequence of
transactions rather than an error. -/
theorem c5_no_transaction_data :
    (∀ ofx : OfxXml,
      qfxParseTree ofx = .error "No transaction data found".data ↔
        ofx.bank_msgs = none ∧ ofx.cc_msgs = none) ∧
    (∀ (ofx : OfxXml) (b : QfxBankMsgsRsV1), ofx.bank_msgs = some b →
      b.stmt_trn_rs.stmt_rs.bank_transaction_list.transactions = [] →
      qfxParseTree ofx = .ok []) ∧
    (∀ (ofx : OfxXml) (c : QfxCreditCardMsgsRsV1), ofx.bank_msgs = none →
      ofx.cc_msgs = some c →
      c.cc_stmt_trn_rs.cc_stmt_rs.bank_transaction_list.transactions = [] →
      qfxParseTree ofx = .ok []) := by
  refine ⟨?_, ?_, ?_⟩
  · intro ofx
    obtain ⟨bm, cm⟩ := ofx
    cases bm with
    | some b =>
      simp only [qfxParseTree, qfxExtractRaw]
      constructor
      · intro h
        rcases qfx_collect_error_shape _ _ h with ⟨e0, he⟩
        exact absurd he.symm (invalid_amount_ne_ntd e0)
      · rintro ⟨h1, h2⟩
        exact absurd h1 (by simp)
    | none =>
      cases cm with
      | some c =>
        simp only [qfxParseTree, qfxExtractRaw]
        constructor
        · intro h
          rcases qfx_collect_error_shape _ _ h with ⟨e0, he⟩
          exact absurd he.symm (invalid_amount_ne_ntd e0)
        · rintro ⟨h1, h2⟩
          exact absurd h2 (by simp)
      | none => simp [qfxParseTree, qfxExtractRaw]
  · intro ofx b hb hempty
    obtain ⟨bm, cm⟩ := ofx
    simp only at hb
    subst hb
    simp [qfxParseTree, qfxExtractRaw, hempty, collectResults]
  · intro ofx c hb hc hempty
    obtain ⟨bm, cm⟩ := ofx
    simp only at hb hc
    subst hb
    subst hc
    simp [qfxParseTree, qfxExtractRaw, hempty, collectResults]

/-- C5 witness: `c5_no_transaction_data` at a tree with both branches
absent, and at a bank branch carrying an empty transaction list. -/
theorem c5_witness :
    (qfxParseTree ⟨none, none⟩ =
       .error "No transaction data found".data) ∧
    qfxParseTree ⟨some ⟨⟨⟨⟨[]⟩⟩⟩⟩, none⟩ = .ok [] :=
  ⟨(c5_no_transaction_data.1 ⟨none, none⟩).mpr ⟨rfl, rfl⟩,
   c5_no_transaction_data.2.1 ⟨some ⟨⟨⟨⟨[]⟩⟩⟩⟩, none⟩ ⟨⟨⟨⟨[]⟩⟩⟩⟩ rfl rfl⟩

/-- `from_raw` succeeds whenever the amount token parses. -/
theorem qfxFromRaw_ok_of_amount (r : QfxTransactionRaw)
    (h : (decimalFromStr r.amount).isOk = true) :
    ∃ t, qfxFromRaw r = .ok t := by
  unfold qfxFromRaw
  cases hd : decimalFromStr r.amount with
  | ok a => exact ⟨_, rfl⟩
  | error e =>
    rw [hd] at h
    simp [Except.isOk, Except.toBool] at h

/-- The conversion pass stops at the first raw node whose amount does not
parse, with the invalid-amount message. -/
theorem collect_qfx_fail_fast (pre post : List QfxTransactionRaw)
    (raw : QfxTransactionRaw) (e : Str)
    (hpre : ∀ r ∈ pre, (decimalFromStr r.amount).isOk = true)
    (hd : decimalFromStr raw.amount = .error e) :
    collectResults qfxFromRaw (pre ++ raw :: post) =
      .error ("Invalid amount: ".data ++ e) := by
  induction pre with
  | nil =>
    rw [List.nil_append, collectResults]
    have hraw : qfxFromRaw raw = .error ("Invalid amount: ".data ++ e) := by
      unfold qfxFromRaw
      rw [hd]
    rw [hraw]
  | cons a as ih =>
    rw [List.cons_append, collectResults]
    rcases qfxFromRaw_ok_of_amount a (hpre a (by simp)) with ⟨t, ht⟩
    rw [ht, ih (fun r hr => hpre r (by simp [hr]))]

/-- C8 (amended): a raw transaction node whose `TRNAMT` text does not parse
as an exact decimal makes the whole QFX parse fail — no partial result — with
the error `"Invalid amount: {e}"`, where `e` is one of the decimal library's
fixed error descriptions (so the message describes the failure but does not
include the offending amount token itself); the builder wraps this as the
`ParseFailed` kind. -/
theorem c8_invalid_amount_fail_fast :
    ∀ (ofx : OfxXml) (pre post : List QfxTransactionRaw)
      (raw : QfxTransactionRaw) (e : Str),
      qfxExtractRaw ofx = .ok (pre ++ raw :: post) →
      (∀ r ∈ pre, (decimalFromStr r.amount).isOk = true) →
      decimalFromStr raw.amount = .error e →
      qfxParseTree ofx = .error ("Invalid amount: ".data ++ e) ∧
      qfxParseRawArm ofx =
        .error (.ParseFailed ("Invalid amount: ".data ++ e)) ∧
      (e = "Invalid decimal: empty".data ∨
       e = "Invalid decimal: two decimal points".data ∨
       e = "Invalid decimal: unknown character".data ∨
       e = "Invalid decimal: no digits".data ∨
       e = "Invalid decimal: overflow from too many digits".data ∨
       e = "Invalid decimal: fractional part too long".data) := by
  intro ofx pre post raw e hx hpre hd
  have hmain : qfxParseTree ofx = .error ("Invalid amount: ".data ++ e) := by
    unfold qfxParseTree
    rw [hx]
    exact collect_qfx_fail_fast pre post raw e hpre hd
  refine ⟨hmain, ?_, decimalFromStr_error_desc raw.amount e hd⟩
  unfold qfxParseRawArm
  rw [hmain]

/-- C8 witness: `c8_invalid_amount_fail_fast` at a one-transaction tree with
amount token `"$100.00"`. -/
theorem c8_witness :
    qfxParseTree ⟨some ⟨⟨⟨⟨[⟨"DEBIT".data, ⟨"20251226120000".data⟩,
        "$100.00".data, none, none, none⟩]⟩⟩⟩⟩, none⟩ =
      .error "Invalid amount: Invalid decimal: unknown character".data :=
  (c8_invalid_amount_fail_fast ⟨some ⟨⟨⟨⟨[⟨"DEBIT".data,
        ⟨"20251226120000".data⟩, "$100.00".data, none, none, none⟩]⟩⟩⟩⟩, none⟩
      [] [] ⟨"DEBIT".data, ⟨"20251226120000".data⟩, "$100.00".data, none,
        none, none⟩ "Invalid decimal: unknown character".data
      (by decide) (by decide) (by decide)).1

/-- Membership form of `allDigits`. -/
theorem allDigits_mem (l : Str) (x : Char) (h : allDigits l = true)
    (hx : x ∈ l) : isDigitC x = true := by
  unfold allDigits at h
  exact List.all_eq_true.mp h x hx

/-- `dropWhile` is the identity when no element satisfies the predicate. -/
theorem dropWhile_eq_self_of (p : Char → Bool) (l : Str)
    (h : ∀ x ∈ l, p x = false) : l.dropWhile p = l := by
  cases l with
  | nil => rfl
  | cons a as => simp [List.dropWhile_cons, h a (by simp)]

/-- Trimming a string without whitespace is the identity. -/
theorem trimStr_eq_self (s : Str) (h : ∀ x ∈ s, isWs x = false) :
    trimStr s = s := by
  unfold trimStr trimStart trimEnd
  rw [dropWhile_eq_self_of _ _ h]
  rw [dropWhile_eq_self_of _ _ (fun x hx => h x (List.mem_reverse.mp hx))]
  rw [List.reverse_reverse]

/-- A decimal digit is not whitespace. -/
theorem isWs_false_of_digit (x : Char) (h : isDigitC x = true) :
    isWs x = false := by
  by_cases h1 : x = ' '
  · subst h1; exact absurd h (by decide)
  · by_cases h2 : x = '\t'
    · subst h2; exact absurd h (by decide)
    · by_cases h3 : x = '\n'
      · subst h3; exact absurd h (by decide)
      · by_cases h4 : x = '\r'
        · subst h4; exact absurd h (by decide)
        · simp [isWs, h1, h2, h3, h4]

/-- Splitting a separator-free string yields one piece. -/
theorem splitOnChar_not_mem (sep : Char) (l : Str) (h : sep ∉ l) :
    splitOnChar sep l = [l] := by
  induction l with
  | nil => rfl
  | cons c cs ih =>
    rw [splitOnChar]
    have hc : ¬(c = sep) := fun he => h (by simp [← he])
    rw [if_neg hc, ih (fun hm => h (by simp [hm]))]

/-- Splitting peels off a separator-free prefix. -/
theorem splitOnChar_append (sep : Char) (l r : Str) (h : sep ∉ l) :
    splitOnChar sep (l ++ sep :: r) = l :: splitOnChar sep r := by
  induction l with
  | nil => simp [splitOnChar]
  | cons c cs ih =>
    rw [List.cons_append, splitOnChar]
    have hc : ¬(c = sep) := fun he => h (by simp [← he])
    rw [if_neg hc, ih (fun hm => h (by simp [hm]))]

/-- A canonical `YYYY-MM-DD` token contains no whitespace. -/
theorem token_ymd_no_ws (ys ms ds : Str)
    (hy : allDigits ys = true) (hm : allDigits ms = true)
    (hd : allDigits ds = true) :
    ∀ x ∈ ys ++ ('-' :: (ms ++ ('-' :: ds))), isWs x = false := by
  intro x hx
  rcases List.mem_append.mp hx with h | h
  · exact isWs_false_of_digit x (allDigits_mem ys x hy h)
  · rcases List.mem_cons.mp h with h | h
    · subst h; decide
    · rcases List.mem_append.mp h with h | h
      · exact isWs_false_of_digit x (allDigits_mem ms x hm h)
      · rcases List.mem_cons.mp h with h | h
        · subst h; decide
        · exact isWs_false_of_digit x (allDigits_mem ds x hd h)

/-- A digit string does not contain `'-'`. -/
theorem dash_not_mem_digits (l : Str) (h : allDigits l = true) : '-' ∉ l := by
  intro hm
  have := allDigits_mem l '-' h hm
  exact absurd this (by decide)

/-- Every canonically shaped `YYYY-MM-DD` token naming a real calendar date
is resolved by `CsvDate::parse` to that date. -/
theorem csvDateParse_canonical_ymd (ys ms ds : Str) (nd : NaiveDate)
    (hy : allDigits ys = true) (hylen : ys.length = 4)
    (hm : allDigits ms = true) (hmlen : ms.length = 2)
    (hd : allDigits ds = true) (hdlen : ds.length = 2)
    (hv : fromYmdOpt (digitsToNat ys) (digitsToNat ms) (digitsToNat ds) =
      some nd) :
    csvDateParse ⟨ys ++ ('-' :: (ms ++ ('-' :: ds)))⟩ = .ok nd := by
  have htrim : trimStr (ys ++ ('-' :: (ms ++ ('-' :: ds)))) =
      ys ++ ('-' :: (ms ++ ('-' :: ds))) :=
    trimStr_eq_self _ (token_ymd_no_ws ys ms ds hy hm hd)
  have hsplit : splitOnChar '-' (ys ++ ('-' :: (ms ++ ('-' :: ds)))) =
      [ys, ms, ds] := by
    rw [splitOnChar_append '-' ys _ (dash_not_mem_digits ys hy)]
    rw [splitOnChar_append '-' ms _ (dash_not_mem_digits ms hm)]
    rw [splitOnChar_not_mem '-' ds (dash_not_mem_digits ds hd)]
  have hymd : parseYmdDash (ys ++ ('-' :: (ms ++ ('-' :: ds)))) = .ok nd := by
    unfold parseYmdDash
    rw [hsplit]
    show chronoOfParts ys ms ds = .ok nd
    unfold chronoOfParts
    rw [if_pos ⟨hylen, hy, by omega, by omega, hm, by omega, by omega, hd⟩]
    rw [hv]
  unfold csvDateParse
  rw [htrim, hymd]

/-- `CsvDate::parse` runs its three format attempts in order, with the first
success winning and the CSV-date error kind when all fail. -/
theorem csv_cascade :
    (∀ (s : Str) (d : NaiveDate), parseYmdDash (trimStr s) = .ok d →
      csvDateParse ⟨s⟩ = .ok d) ∧
    (∀ (s : Str) (d : NaiveDate), (parseYmdDash (trimStr s)).isOk = false →
      parseDmySlash (trimStr s) = .ok d → csvDateParse ⟨s⟩ = .ok d) ∧
    (∀ (s : Str) (d : NaiveDate), (parseYmdDash (trimStr s)).isOk = false →
      (parseDmySlash (trimStr s)).isOk = false →
      parseMdySlash (trimStr s) = .ok d → csvDateParse ⟨s⟩ = .ok d) ∧
    (∀ s : Str, (parseYmdDash (trimStr s)).isOk = false →
      (parseDmySlash (trimStr s)).isOk = false →
      (parseMdySlash (trimStr s)).isOk = false →
      csvDateParse ⟨s⟩ = .error .CsvDateInvalidFormat) := by
  refine ⟨?_, ?_, ?_, ?_⟩
  · intro s d h
    unfold csvDateParse
    rw [h]
  · intro s d h1 h2
    unfold csvDateParse
    cases hy : parseYmdDash (trimStr s) with
    | ok d2 => rw [hy] at h1; simp [Except.isOk, Except.toBool] at h1
    | error e1 => rw [h2]
  · intro s d h1 h2 h3
    unfold csvDateParse
    cases hy : parseYmdDash (trimStr s) with
    | ok d2 => rw [hy] at h1; simp [Except.isOk, Except.toBool] at h1
    | error e1 =>
      cases hdm : parseDmySlash (trimStr s) with
      | ok d2 => rw [hdm] at h2; simp [Except.isOk, Except.toBool] at h2
      | error e2 => rw [h3]
  · intro s h1 h2 h3
    unfold csvDateParse
    cases hy : parseYmdDash (trimStr s) with
    | ok d2 => rw [hy] at h1; simp [Except.isOk, Except.toBool] at h1
    | error e1 =>
      cases hdm : parseDmySlash (trimStr s) with
      | ok d2 => rw [hdm] at h2; simp [Except.isOk, Except.toBool] at h2
      | error e2 =>
        cases hmd : parseMdySlash (trimStr s) with
        | ok d2 => rw [hmd] at h3; simp [Except.isOk, Except.toBool] at h3
        | error e3 => rfl

/-- C1 (amended): the standalone `CsvDate::parse` tries `YYYY-MM-DD`, then
`DD/MM/YYYY`, then `MM/DD/YYYY`, the first successful attempt winning and
failure of all three yielding the CSV-date error kind; every canonical
`YYYY-MM-DD` token naming a real calendar date resolves to that date, and
the three sample tokens resolve as intended.  The parsing pipeline's own row
conversion, however, tries only the first two formats, so a `MM/DD/YYYY`
token that `CsvDate::parse` accepts is rejected by the pipeline. -/
theorem c1_csv_date_formats :
    (∀ (s : Str) (d : NaiveDate), parseYmdDash (trimStr s) = .ok d →
      csvDateParse ⟨s⟩ = .ok d) ∧
    (∀ (s : Str) (d : NaiveDate), (parseYmdDash (trimStr s)).isOk = false →
      parseDmySlash (trimStr s) = .ok d → csvDateParse ⟨s⟩ = .ok d) ∧
    (∀ (s : Str) (d : NaiveDate), (parseYmdDash (trimStr s)).isOk = false →
      (parseDmySlash (trimStr s)).isOk = false →
      parseMdySlash (trimStr s) = .ok d → csvDateParse ⟨s⟩ = .ok d) ∧
    (∀ s : Str, (parseYmdDash (trimStr s)).isOk = false →
      (parseDmySlash (trimStr s)).isOk = false →
      (parseMdySlash (trimStr s)).isOk = false →
      csvDateParse ⟨s⟩ = .error .CsvDateInvalidFormat) ∧
    (∀ (ys ms ds : Str) (nd : NaiveDate),
      allDigits ys = true → ys.length = 4 →
      allDigits ms = true → ms.length = 2 →
      allDigits ds = true → ds.length = 2 →
      fromYmdOpt (digitsToNat ys) (digitsToNat ms) (digitsToNat ds) =
        some nd →
      csvDateParse ⟨ys ++ ('-' :: (ms ++ ('-' :: ds)))⟩ = .ok nd) ∧
    csvDateParse ⟨"2025-12-26".data⟩ = .ok ⟨2025, 12, 26⟩ ∧
    csvDateParse ⟨"26/12/2025".data⟩ = .ok ⟨2025, 12, 26⟩ ∧
    csvDateParse ⟨"12/26/2025".data⟩ = .ok ⟨2025, 12, 26⟩ ∧
    csvDateParse ⟨"invalid-date".data⟩ = .error .CsvDateInvalidFormat ∧
    (parseDmySlash "12/26/2025".data).isOk = false ∧
    (csvTryFromRaw ⟨"12/26/2025".data, "DEBIT".data, none, "1.00".data,
        none, none⟩).isOk = false := by
  refine ⟨csv_cascade.1, csv_cascade.2.1, csv_cascade.2.2.1,
    csv_cascade.2.2.2,
    fun ys ms ds nd hy hylen hm hmlen hd hdlen hv =>
      csvDateParse_canonical_ymd ys ms ds nd hy hylen hm hmlen hd hdlen hv,
    by decide, by decide, by decide, by decide, by decide, by decide⟩

/-- C1 witness: the first-attempt and canonical-token parts of
`c1_csv_date_formats` applied at concrete tokens. -/
theorem c1_witness :
    csvDateParse ⟨"2025-12-26".data⟩ = .ok ⟨2025, 12, 26⟩ ∧
    csvDateParse ⟨"2025".data ++ ('-' :: ("02".data ++ ('-' :: "28".data)))⟩ =
      .ok ⟨2025, 2, 28⟩ :=
  ⟨c1_csv_date_formats.1 "2025-12-26".data ⟨2025, 12, 26⟩ (by decide),
   c1_csv_date_formats.2.2.2.2.1 "2025".data "02".data "28".data
      ⟨2025, 2, 28⟩ (by decide) (by decide) (by decide) (by decide)
      (by decide) (by decide) (by decide)⟩

/-- C3 (amended): the CSV parse step resolves the date eagerly during row
conversion — trying `YYYY-MM-DD` then `DD/MM/YYYY` — and validates the
amount; a row whose date resolves under neither format fails the parse with
the string error `"Invalid date: {e}"`, which the dispatcher wraps as the
generic `ParseFailed` kind (the CSV-date error kind is not produced by this
path).  A row whose date does resolve is stored with the resolved calendar
date, not the original text.  Only the QFX parser retains its date textually
for later resolution. -/
theorem c3_csv_eager_date_resolution :
    (∀ (raw : CsvTransactionRaw) (e : Str),
      (parseYmdDash raw.date).isOk = false →
      parseDmySlash raw.date = .error e →
      csvTryFromRaw raw = .error ("Invalid date: ".data ++ e)) ∧
    (∀ (raw : CsvTransactionRaw) (rest : List CsvTransactionRaw) (e : Str),
      (parseYmdDash raw.date).isOk = false →
      parseDmySlash raw.date = .error e →
      csvParseRawArm (raw :: rest) =
        .error (.ParseFailed ("Invalid date: ".data ++ e))) ∧
    (∀ (raw : CsvTransactionRaw) (d : NaiveDate) (a : Decimal),
      parseYmdDash raw.date = .ok d →
      decimalFromStr raw.amount = .ok a →
      csvTryFromRaw raw =
        .ok ⟨d, raw.trn_type, raw.description, a, raw.fitid, raw.memo⟩) ∧
    (∀ (raw : QfxTransactionRaw) (t : QfxTransaction),
      qfxFromRaw raw = .ok t → t.dt_posted = raw.dt_posted) := by
  refine ⟨?_, ?_, ?_, ?_⟩
  · intro raw e h1 h2
    unfold csvTryFromRaw
    cases hy : parseYmdDash raw.date with
    | ok d2 => rw [hy] at h1; simp [Except.isOk, Except.toBool] at h1
    | error e1 => rw [h2]
  · intro raw rest e h1 h2
    have hrow : csvTryFromRaw raw = .error ("Invalid date: ".data ++ e) := by
      unfold csvTryFromRaw
      cases hy : parseYmdDash raw.date with
      | ok d2 => rw [hy] at h1; simp [Except.isOk, Except.toBool] at h1
      | error e1 => rw [h2]
    unfold csvParseRawArm csvParseRows
    rw [collectResults, hrow]
  · intro raw d a h1 h2
    unfold csvTryFromRaw
    rw [h1]
    unfold csvTryFromRaw.csvFinish
    rw [h2]
  · intro raw t h
    unfold qfxFromRaw at h
    cases hd : decimalFromStr raw.amount with
    | ok a =>
      rw [hd] at h
      injection h with h2
      rw [← h2]
    | error e =>
      rw [hd] at h
      simp at h

/-- C3 witness: the row-level and builder-level parts of
`c3_csv_eager_date_resolution` applied to a row with the unresolvable date
`"invalid"`. -/
theorem c3_witness :
    csvParseRawArm [⟨"invalid".data, "DEBIT".data, none, "1.00".data, none,
        none⟩] =
      .error (.ParseFailed
        ("Invalid date: ".data ++ "input contains invalid characters".data)) :=
  c3_csv_eager_date_resolution.2.1
    ⟨"invalid".data, "DEBIT".data, none, "1.00".data, none, none⟩ []
    "input contains invalid characters".data (by decide) (by decide)

/-- `findIdxP` finds the first satisfying position after a failing prefix. -/
theorem findIdxP_append_first (p : Char → Bool) (l : Str) (c : Char) (r : Str)
    (hl : ∀ x ∈ l, p x = false) (hc : p c = true) :
    findIdxP p (l ++ c :: r) = some l.length := by
  induction l with
  | nil => simp [findIdxP, hc]
  | cons a as ih =>
    rw [List.cons_append, findIdxP, hl a (by simp)]
    rw [if_neg (by simp)]
    rw [ih (fun x hx => hl x (by simp [hx]))]
    simp

/-- `strContains` false gives an empty substring search. -/
theorem strContains_false_findSubstrIdx (hay needle : Str)
    (h : strContains hay needle = false) :
    findSubstrIdx hay needle = none := by
  unfold strContains at h
  cases hf : findSubstrIdx hay needle with
  | none => rfl
  | some i => rw [hf] at h; simp at h

/-- The synthesizing branch of the SGML normalizer, in general form: a
trimmed line opening a registry leaf element whose trailing content has no
embedded closing tag gets the matching closing tag appended right after its
trimmed inline text. -/
theorem processSgmlLine_synthesizes (n0 : Char) (name2 rest : Str)
    (hslash : '/' ∉ n0 :: name2)
    (hchars : ∀ x ∈ n0 :: name2, x ≠ '>' ∧ isWs x = false)
    (hreg : LEAF_ELEMENTS.contains (upperStr (n0 :: name2)) = true)
    (hnoclose : strContains rest
      ("</".data ++ ((n0 :: name2) ++ ">".data)) = false)
    (hnosub : strContains rest "</".data = false)
    (htrim : trimStr ('<' :: ((n0 :: name2) ++ ('>' :: rest))) =
      '<' :: ((n0 :: name2) ++ ('>' :: rest))) :
    processSgmlLine ('<' :: ((n0 :: name2) ++ ('>' :: rest))) =
      ('<' :: (n0 :: name2)) ++ ['>'] ++ trimStr rest ++ "</".data ++
        (n0 :: name2) ++ ">".data ++ ['\n'] := by
  have hn0 : n0 ≠ '/' := fun he => hslash (by simp [he])
  have h3 : strStartsWith ('<' :: n0 :: (name2 ++ '>' :: rest))
      ['<'] = true := by
    simp [strStartsWith, List.isPrefixOf]
  have h4 : strStartsWith ('<' :: n0 :: (name2 ++ '>' :: rest))
      ['<', '/'] = false := by
    simp [strStartsWith, List.isPrefixOf, Ne.symm hn0]
  have hp : ∀ x ∈ '<' :: (n0 :: name2),
      (fun c => decide (c = '>' ∨ isWs c = true)) x = false := by
    intro x hx
    rcases List.mem_cons.mp hx with h | h
    · subst h; decide
    · rcases hchars x h with ⟨ha, hb⟩
      simp [ha, hb]
  have h5 : findIdxP (fun c => decide (c = '>' ∨ isWs c = true))
      ('<' :: ((n0 :: name2) ++ ('>' :: rest))) =
      some (name2.length + 2) := by
    have h0 := findIdxP_append_first
      (fun c => decide (c = '>' ∨ isWs c = true))
      ('<' :: (n0 :: name2)) '>' rest hp (by decide)
    rw [List.cons_append] at h0
    rw [h0]
    simp
  have hp2 : ∀ x ∈ '<' :: (n0 :: name2),
      (fun c => decide (c = '>')) x = false := by
    intro x hx
    rcases List.mem_cons.mp hx with h | h
    · subst h; decide
    · rcases hchars x h with ⟨ha, _⟩
      simp [ha]
  have h7 : findIdxP (fun c => decide (c = '>'))
      ('<' :: ((n0 :: name2) ++ ('>' :: rest))) =
      some (name2.length + 2) := by
    have h0 := findIdxP_append_first (fun c => decide (c = '>'))
      ('<' :: (n0 :: name2)) '>' rest hp2 (by decide)
    rw [List.cons_append] at h0
    rw [h0]
    simp
  have h13 : ('<' :: ((n0 :: name2) ++ ('>' :: rest))).take
      (name2.length + 2) = '<' :: (n0 :: name2) := by
    have h0 := List.take_left ('<' :: (n0 :: name2)) ('>' :: rest)
    rw [List.cons_append] at h0
    simpa using h0
  have h6 : (('<' :: ((n0 :: name2) ++ ('>' :: rest))).take
      (name2.length + 2)).drop 1 = n0 :: name2 := by
    rw [h13]
    rfl
  have h8 : ('<' :: ((n0 :: name2) ++ ('>' :: rest))).drop
      (name2.length + 2 + 1) = rest := by
    have h0 := List.drop_left (('<' :: (n0 :: name2)) ++ ['>']) rest
    rw [List.append_assoc, List.cons_append, List.singleton_append] at h0
    simpa using h0
  have h13b : ('<' :: ((n0 :: name2) ++ ('>' :: rest))).take
      (name2.length + 2 + 1) = ('<' :: (n0 :: name2)) ++ ['>'] := by
    have h0 := List.take_left (('<' :: (n0 :: name2)) ++ ['>']) rest
    rw [List.append_assoc, List.cons_append, List.singleton_append] at h0
    simpa using h0
  have h10 : findSubstrIdx rest "</".data = none :=
    strContains_false_findSubstrIdx rest "</".data hnosub
  simp only [processSgmlLine, findTagEnd, htrim]
  rw [if_neg (by simp)]
  rw [if_neg (by simp [h3, h4])]
  rw [h5]
  simp only [Option.getD_some]
  rw [h6]
  rw [if_pos hreg]
  rw [h7]
  simp only []
  rw [h8, if_pos (by simpa using hnoclose), h10]
  simp only [Option.getD_none, List.take_length, List.drop_length]
  rw [h13b]
  simp [List.append_assoc]

/-- C6: on every trimmed line opening a registry leaf element whose trailing
content lacks the matching closing tag, the SGML normalizer synthesizes the
closing tag immediately after the trimmed inline text; concretely an
unclosed `<TRNTYPE>DEBIT` line becomes `<TRNTYPE>DEBIT</TRNTYPE>`, a line
that already embeds its exact closing tag is copied verbatim (trailing
content preserved), a mismatched embedded closing tag is kept as preserved
trailing content after the synthesized one, and the whole-document pass
rewrites an SGML body accordingly while dropping the header lines before
`<OFX>`. -/
theorem c6_sgml_leaf_closing :
    (∀ (n0 : Char) (name2 rest : Str),
      '/' ∉ n0 :: name2 →
      (∀ x ∈ n0 :: name2, x ≠ '>' ∧ isWs x = false) →
      LEAF_ELEMENTS.contains (upperStr (n0 :: name2)) = true →
      strContains rest ("</".data ++ ((n0 :: name2) ++ ">".data)) = false →
      strContains rest "</".data = false →
      trimStr ('<' :: ((n0 :: name2) ++ ('>' :: rest))) =
        '<' :: ((n0 :: name2) ++ ('>' :: rest)) →
      processSgmlLine ('<' :: ((n0 :: name2) ++ ('>' :: rest))) =
        ('<' :: (n0 :: name2)) ++ ['>'] ++ trimStr rest ++ "</".data ++
          (n0 :: name2) ++ ">".data ++ ['\n']) ∧
    processSgmlLine "<TRNTYPE>DEBIT".data =
      "<TRNTYPE>DEBIT</TRNTYPE>\n".data ∧
    processSgmlLine "<TRNTYPE>DEBIT</TRNTYPE>".data =
      "<TRNTYPE>DEBIT</TRNTYPE>\n".data ∧
    processSgmlLine "<NAME>Coffee</NAME><X>junk".data =
      "<NAME>Coffee</NAME><X>junk\n".data ∧
    processSgmlLine "<NAME>Coffee</MEMO>x".data =
      "<NAME>Coffee</NAME></MEMO>x\n".data ∧
    convertSgmlToXml
        "OFXHEADER:100\nDATA:OFXSGML\nVERSION:102\n<OFX>\n<TRNTYPE>DEBIT\n</OFX>".data =
      "<OFX>\n<TRNTYPE>DEBIT</TRNTYPE>\n</OFX>\n".data :=
  ⟨fun n0 name2 rest h1 h2 h3 h4 h5 h6 =>
    processSgmlLine_synthesizes n0 name2 rest h1 h2 h3 h4 h5 h6,
   by decide, by decide, by decide, by decide, by decide⟩

/-- C6 witness: the general part of `c6_sgml_leaf_closing` applied to the
line `<NAME>Coffee`. -/
theorem c6_witness :
    processSgmlLine ('<' :: (('N' :: "AME".data) ++ ('>' :: "Coffee".data))) =
      ('<' :: ('N' :: "AME".data)) ++ ['>'] ++ trimStr "Coffee".data ++
        "</".data ++ ('N' :: "AME".data) ++ ">".data ++ ['\n'] :=
  c6_sgml_leaf_closing.1 'N' "AME".data "Coffee".data (by decide) (by decide)
    (by decide) (by decide) (by decide) (by decide)

end BankStatement
